import Mathlib

/-!
Shallow embedding of `src/getopt.c` (getopt_port): POSIX-style `getopt` and
`getopt_long` with in-place argv permutation.

Modelling conventions:
* C strings are `List Char` without interior NUL; reading at or past the end
  yields the NUL terminator (`cAt`).
* argv elements are `Arg` records carrying a distinct `id` that stands for the
  C pointer identity used in the source's `argv[optind] != first` comparisons.
* The cross-call globals (`optarg`, `optopt`, `optind`, `opterr`, `optcursor`,
  `first`) are an explicit `GetoptState` record threaded through each call.
* `optcursor` is a pointer into an element's text: the element plus an offset.
* The two rotation loops of the source can fail to terminate on states that
  violate the pass protocol; they receive fuel equal to the window length,
  which suffices exactly because rotation configurations repeat with that
  period, and exhausted fuel (`none`) stands for the source's infinite loop.
* Diagnostics the source would print to stderr are collected in a list,
  guarded by the same `opterr` test as in the source.
-/

/-- NUL, the C string terminator, also the value read past the end. -/
def nulChar : Char := Char.ofNat 0

/-- One argv element: `id` models the C pointer identity, `str` the text. -/
structure Arg where
  id : Nat
  str : List Char
deriving DecidableEq, Repr

instance : Inhabited Arg := ⟨⟨0, []⟩⟩

/-- Character read `s[k]` as C performs it: the character at offset `k`, NUL at or past the end. -/
def cAt (s : List Char) (k : Nat) : Char := s.getD k nulChar

/-- C `strchr(s, c)` for non-NUL `c`: the suffix of `s` starting at the first
occurrence of `c`, `none` when `c` does not occur (the source never searches
for NUL itself). -/
def strchrSuffix : List Char → Char → Option (List Char)
  | [], _ => none
  | c :: rest, ch => if c = ch then some (c :: rest) else strchrSuffix rest ch

/-- C `strcspn(s, "=")`: length of the longest initial segment of `s` free of
`'='` (getopt.c:240). -/
def strcspnEq : List Char → Nat
  | [] => 0
  | c :: rest => if c = '=' then 0 else strcspnEq rest + 1

/-- The `rotate` primitive (getopt.c:45-51): move the first element of the window to the end,
shifting the rest left by one.  The source's `argc <= 1` early return has the
same effect on lists of length 0 or 1. -/
def rotate : List Arg → List Arg
  | [] => []
  | a :: t => t ++ [a]

/-- Diagnostics the source would print to stderr (getopt.c:160,171,305,308). -/
inductive Diag
  | invalidOption (c : Char)
  | missingArg (c : Char)
  | unrecognizedLong (tok : List Char)
  | ambiguousLong (tok : List Char)
deriving DecidableEq, Repr

/-- The source's cross-call globals (getopt.c:35-42). -/
structure GetoptState where
  optarg : Option (List Char)
  optopt : Char
  optind : Nat
  opterr : Bool
  optcursor : Option (Arg × Nat)
  first : Option Arg
deriving DecidableEq, Repr

/-- The globals as initialized at program start: `optind = 1`, `opterr = 1`
(getopt.c:35-39). -/
def initState : GetoptState :=
  { optarg := none, optopt := nulChar, optind := 1, opterr := true,
    optcursor := none, first := none }

/-- Both entry points first clear `optarg`, `opterr` and `optopt` and
normalize a caller-reset `optind ≤ 1` back to 1 (getopt.c:65-71, 202-208). -/
def entryState (s : GetoptState) : GetoptState :=
  { s with optarg := none, opterr := false, optopt := nulChar,
           optind := if s.optind ≤ 1 then 1 else s.optind }

/-- Loop of getopt.c:91-93 / 227-229: rotate the unscanned window until its head
starts with a dash or is (pointer-)identical to the anchor.  Fuel bounds the
search; configurations repeat with period equal to the window length, so
exhausted fuel (`none`) means the source's loop never exits. -/
def permuteLoop : Nat → List Arg → Arg → Option (List Arg)
  | 0, _, _ => none
  | fuel + 1, w, fst =>
    if cAt (rotate w).headI.str 0 = '-' ∨ (rotate w).headI = fst then some (rotate w)
    else permuteLoop fuel (rotate w) fst

/-- Loop of getopt.c:109-111: after consuming `"--"`, rotate the remaining window
until the anchor element is at the front. -/
def unwindLoop : Nat → List Arg → Arg → Option (List Arg)
  | 0, _, _ => none
  | fuel + 1, w, fst =>
    if (rotate w).headI = fst then some (rotate w)
    else unwindLoop fuel (rotate w) fst

/-- Outcome of the operand-permutation block shared by both entry points. -/
inductive PermOut
  | noMore (argv : List Arg) (first : Option Arg)
  | cont (argv : List Arg) (first : Option Arg)
  | div
deriving DecidableEq, Repr

/-- Block of getopt.c:84-97 / 220-233: when the element at the scan position does not
start with a dash, either end the pass (window of at most one element, or a
full rotation cycle back to the anchor) or rotate an option to the front,
recording the anchor if none was set. -/
def permutePhase (argv : List Arg) (o : Nat) (first : Option Arg) : PermOut :=
  if cAt (argv.getD o default).str 0 = '-' then .cont argv first
  else if argv.length - o ≤ 1 then .noMore argv first
  else
    match permuteLoop (argv.length - o) (argv.drop o) (first.getD (argv.getD o default)) with
    | none => .div
    | some w =>
      if w.headI = first.getD (argv.getD o default) then
        .noMore (argv.take o ++ w) (some (first.getD (argv.getD o default)))
      else .cont (argv.take o ++ w) (some (first.getD (argv.getD o default)))

/-- Step of getopt.c:116-118: reuse a live cursor, otherwise (NULL or exhausted) point
it just past the leading dash of the current element. -/
def resolveCursor : Option (Arg × Nat) → Arg → Arg × Nat
  | none, elem => (elem, 1)
  | some (a, k), elem => if cAt a.str k = nulChar then (elem, 1) else (a, k)

/-- Result of one `getopt` call: return value, argv (possibly permuted in
place), the globals afterwards, and the diagnostics printed. -/
structure GetoptResult where
  ret : Int
  argv : List Arg
  state : GetoptState
  diags : List Diag
deriving DecidableEq, Repr

/-- Scan of getopt.c:116-180: the clustered short-option scan, entered when the
element at the scan position starts with a dash and is neither `"-"` nor
`"--"`. -/
def shortScan (argv : List Arg) (ostr : List Char) (s : GetoptState) (o : Nat) :
    GetoptResult :=
  match resolveCursor s.optcursor (argv.getD o default) with
  | (a, k) =>
    match strchrSuffix ostr (cAt a.str k) with
    | some optdecl =>
      if cAt optdecl 1 = ':' then
        if cAt a.str (k + 1) = nulChar then
          if cAt optdecl 2 = ':' then
            ⟨((cAt a.str k).toNat : Int), argv,
             { s with optarg := none, optopt := cAt a.str k,
                      optcursor := none, optind := o + 1 }, []⟩
          else
            if o + 1 < argv.length then
              ⟨((cAt a.str k).toNat : Int), argv,
               { s with optarg := some (argv.getD (o + 1) default).str,
                        optopt := cAt a.str k, optcursor := none,
                        optind := o + 2 }, []⟩
            else
              ⟨(if cAt ostr 0 = ':' then ((':' : Char).toNat : Int)
                else (('?' : Char).toNat : Int)), argv,
               { s with optarg := none, optopt := cAt a.str k,
                        optcursor := none, optind := o + 2 },
               if s.opterr then [Diag.missingArg (cAt a.str k)] else []⟩
        else
          ⟨((cAt a.str k).toNat : Int), argv,
           { s with optarg := some (a.str.drop (k + 1)),
                    optopt := cAt a.str k, optcursor := none,
                    optind := o + 1 }, []⟩
      else
        if cAt a.str (k + 1) = nulChar then
          ⟨((cAt a.str k).toNat : Int), argv,
           { s with optarg := none, optopt := cAt a.str k,
                    optcursor := some (a, k + 1), optind := o + 1 }, []⟩
        else
          ⟨((cAt a.str k).toNat : Int), argv,
           { s with optarg := none, optopt := cAt a.str k,
                    optcursor := some (a, k + 1), optind := o }, []⟩
    | none =>
      if cAt a.str (k + 1) = nulChar then
        ⟨(('?' : Char).toNat : Int), argv,
         { s with optarg := none, optopt := cAt a.str k,
                  optcursor := some (a, k + 1), optind := o + 1 },
         if s.opterr then [Diag.invalidOption (cAt a.str k)] else []⟩
      else
        ⟨(('?' : Char).toNat : Int), argv,
         { s with optarg := none, optopt := cAt a.str k,
                  optcursor := some (a, k + 1), optind := o },
         if s.opterr then [Diag.invalidOption (cAt a.str k)] else []⟩

/-- Body of getopt.c:61-186 on an already-entered state (`entryState` applied). -/
def getoptAux (argv : List Arg) (ostr : List Char) (s : GetoptState) :
    Option GetoptResult :=
  if argv.length ≤ s.optind then
    some ⟨-1, argv, { s with optcursor := none, first := none }, []⟩
  else
    match permutePhase argv s.optind s.first with
    | .div => none
    | .noMore argv' _ =>
      some ⟨-1, argv', { s with optcursor := none, first := none }, []⟩
    | .cont argv' fst' =>
      if (argv'.getD s.optind default).str = ['-'] then
        some ⟨-1, argv', { s with optcursor := none, first := none }, []⟩
      else if (argv'.getD s.optind default).str = ['-', '-'] then
        match fst' with
        | none =>
          some ⟨-1, argv', { s with optind := s.optind + 1,
                                    optcursor := none, first := none }, []⟩
        | some fst =>
          match unwindLoop (argv'.length - (s.optind + 1))
              (argv'.drop (s.optind + 1)) fst with
          | none => none
          | some w =>
            some ⟨-1, argv'.take (s.optind + 1) ++ w,
              { s with optind := s.optind + 1,
                       optcursor := none, first := none }, []⟩
      else shortScan argv' ostr { s with first := fst' } s.optind

/-- The `getopt` entry point (getopt.c:61-186). -/
def getopt (argv : List Arg) (ostr : List Char) (s0 : GetoptState) :
    Option GetoptResult :=
  getoptAux argv ostr (entryState s0)

/-- Argument mode (`has_arg`) of a long-option descriptor (getopt.h). -/
inductive HasArg
  | no_argument
  | required_argument
  | optional_argument
deriving DecidableEq, Repr

/-- Model of `struct option` (getopt.h): `flag` records whether the C `flag` pointer is
non-null; the value written through it is reported in the call result. -/
structure LongOption where
  name : List Char
  has_arg : HasArg
  flag : Bool
  val : Int
deriving DecidableEq, Repr

/-- Result of one `getopt_long` call.  `longindexOut` is the value written
through the caller's `longindex` pointer (when one was passed), `flagWrite`
the value written through the matched descriptor's `flag` pointer (when
non-null); `none` means no write happened. -/
structure GetoptLongResult where
  ret : Int
  argv : List Arg
  state : GetoptState
  diags : List Diag
  longindexOut : Option Nat
  flagWrite : Option Int
deriving DecidableEq, Repr

/-- Loop of getopt.c:241-261: scan the descriptor table, breaking on an exact match
(name length equal to the candidate length and equal characters), otherwise
accumulating prefix matches.  `i` is the table index of the head, `m` the
running match, `k` the running match count.  The inner length test inside the
prefix branch mirrors getopt.c:255-259 (it is unreachable: the exact test
above already caught that case). -/
def matchLoop (cur : List Char) (n : Nat) :
    List LongOption → Nat → Option (LongOption × Nat) → Nat →
    Option (LongOption × Nat) × Nat
  | [], _, m, k => (m, k)
  | d :: rest, i, m, k =>
    if d.name.length = n ∧ d.name.take n = cur.take n then (some (d, i), 1)
    else if d.name.take n = cur.take n then
      if d.name.length = n then (some (d, i), 1)
      else matchLoop cur n rest (i + 1) (some (d, i)) (k + 1)
    else matchLoop cur n rest (i + 1) m k

/-- Phase of getopt.c:239-313: resolve the element at the scan position as a long
option (it starts with `"--"` and is longer than two characters). -/
def longPhase (argv : List Arg) (o : Nat) (table : List LongOption)
    (hasLI : Bool) (s : GetoptState) : GetoptLongResult :=
  match matchLoop ((argv.getD o default).str.drop 2)
      (strcspnEq ((argv.getD o default).str.drop 2)) table 0 none 0 with
  | (some (m, i), 1) =>
    if m.has_arg ≠ HasArg.no_argument then
      if m.has_arg = HasArg.required_argument ∧
         strchrSuffix (argv.getD o default).str '=' = none then
        if o + 1 < argv.length then
          ⟨if m.flag then 0 else m.val, argv,
           { s with optarg := some (argv.getD (o + 1) default).str,
                    optind := o + 2 }, [],
           if hasLI then some i else none, if m.flag then some m.val else none⟩
        else
          ⟨((':' : Char).toNat : Int), argv,
           { s with optarg := none, optind := o + 2 }, [],
           if hasLI then some i else none, if m.flag then some m.val else none⟩
      else
        ⟨if m.flag then 0 else m.val, argv,
         { s with optarg := (strchrSuffix (argv.getD o default).str '=').map
                    (List.drop 1),
                  optind := o + 1 }, [],
         if hasLI then some i else none, if m.flag then some m.val else none⟩
    else
      if strchrSuffix (argv.getD o default).str '=' ≠ none then
        ⟨(('?' : Char).toNat : Int), argv, { s with optind := o + 1 }, [],
         if hasLI then some i else none, if m.flag then some m.val else none⟩
      else
        ⟨if m.flag then 0 else m.val, argv, { s with optind := o + 1 }, [],
         if hasLI then some i else none, if m.flag then some m.val else none⟩
  | (_, k) =>
    ⟨(('?' : Char).toNat : Int), argv, { s with optind := o + 1 },
     if s.opterr then
       [if k = 0 then Diag.unrecognizedLong (argv.getD o default).str
        else Diag.ambiguousLong (argv.getD o default).str]
     else [], none, none⟩

/-- Body of getopt.c:192-318 on an already-entered state.  Note that the
`optind >= argc` exit (getopt.c:210-211) returns directly, clearing neither
`optcursor` nor `first`, and the `no_more_optchars` label (getopt.c:315-317)
clears only `first`. -/
def getopt_longAux (argv : List Arg) (ostr : List Char)
    (table : List LongOption) (hasLI : Bool) (s : GetoptState) :
    Option GetoptLongResult :=
  if argv.length ≤ s.optind then
    some ⟨-1, argv, s, [], none, none⟩
  else
    match permutePhase argv s.optind s.first with
    | .div => none
    | .noMore argv' _ =>
      some ⟨-1, argv', { s with first := none }, [], none, none⟩
    | .cont argv' fst' =>
      if (argv'.getD s.optind default).str.length < 3 ∨
         (argv'.getD s.optind default).str.take 2 ≠ ['-', '-'] then
        (getoptAux argv' ostr { s with first := fst' }).map
          (fun r => ⟨r.ret, r.argv, r.state, r.diags, none, none⟩)
      else
        some (longPhase argv' s.optind table hasLI { s with first := fst' })

/-- The `getopt_long` entry point (getopt.c:192-318). -/
def getopt_long (argv : List Arg) (ostr : List Char)
    (table : List LongOption) (hasLI : Bool) (s0 : GetoptState) :
    Option GetoptLongResult :=
  getopt_longAux argv ostr table hasLI (entryState s0)

/-! ### Helper lemmas about the rotation primitive and the loops -/

lemma rotate_eq_rotate_one (w : List Arg) : rotate w = w.rotate 1 := by
  cases w with
  | nil => rfl
  | cons a t => rw [List.rotate_cons_succ, List.rotate_zero]; rfl

lemma rotate_perm1 (w : List Arg) : (rotate w).Perm w := by
  rw [rotate_eq_rotate_one]; exact List.rotate_perm w 1

lemma getD_zero_headI (w : List Arg) (h : w ≠ []) : w.getD 0 default = w.headI := by
  cases w with
  | nil => exact absurd rfl h
  | cons a t => rfl

lemma headI_eq_getElem (w : List Arg) (h : 0 < w.length) :
    w.headI = w[0] := by
  cases w with
  | nil => simp at h
  | cons a t => rfl

lemma headI_rotate_lt (w : List Arg) (j : Nat) (hj : j < w.length) :
    (w.rotate j).headI = w[j] := by
  rw [List.rotate_eq_drop_append_take hj.le]
  rw [List.drop_eq_getElem_cons hj]
  rfl

lemma permuteLoop_perm (fuel : Nat) (w w' : List Arg) (fst : Arg)
    (h : permuteLoop fuel w fst = some w') : w'.Perm w := by
  induction fuel generalizing w with
  | zero => simp [permuteLoop] at h
  | succ f ih =>
    rw [permuteLoop] at h
    split at h
    · cases h; exact rotate_perm1 w
    · exact (ih (rotate w) h).trans (rotate_perm1 w)

lemma unwindLoop_perm (fuel : Nat) (w w' : List Arg) (fst : Arg)
    (h : unwindLoop fuel w fst = some w') : w'.Perm w := by
  induction fuel generalizing w with
  | zero => simp [unwindLoop] at h
  | succ f ih =>
    rw [unwindLoop] at h
    split at h
    · cases h; exact rotate_perm1 w
    · exact (ih (rotate w) h).trans (rotate_perm1 w)

lemma permuteLoop_cycle_aux (w : List Arg) (hnd : w.Nodup)
    (hop : ∀ a ∈ w, cAt a.str 0 ≠ '-') :
    ∀ fuel j, j + fuel = w.length → j < w.length →
      permuteLoop fuel (w.rotate j) w.headI = some w := by
  intro fuel
  induction fuel with
  | zero => intro j h1 h2; omega
  | succ f ih =>
    intro j h1 h2
    rw [permuteLoop]
    rw [rotate_eq_rotate_one, List.rotate_rotate]
    by_cases hj : j + 1 = w.length
    · rw [hj, List.rotate_length]
      rw [if_pos (Or.inr rfl)]
    · have hj1 : j + 1 < w.length := by omega
      have hhead : (w.rotate (j + 1)).headI = w[j + 1] := headI_rotate_lt w (j + 1) hj1
      rw [if_neg]
      · exact ih (j + 1) (by omega) hj1
      · rw [hhead]
        push_neg
        constructor
        · exact hop _ (w.getElem_mem hj1)
        · rw [headI_eq_getElem w (by omega)]
          intro hc
          have := (List.Nodup.getElem_inj_iff hnd).mp hc
          omega

lemma permuteLoop_cycle (w : List Arg) (hnd : w.Nodup)
    (hop : ∀ a ∈ w, cAt a.str 0 ≠ '-') (hlen : 0 < w.length) :
    permuteLoop w.length w w.headI = some w := by
  have := permuteLoop_cycle_aux w hnd hop w.length 0 (by omega) hlen
  rwa [List.rotate_zero] at this

lemma headI_mem_of_ne_nil (w : List Arg) (h : w ≠ []) : w.headI ∈ w := by
  cases w with
  | nil => exact absurd rfl h
  | cons a t => exact List.mem_cons_self a t

lemma permutePhase_only_operands (prog : Arg) (rest : List Arg)
    (hlen : 2 ≤ rest.length) (hnd : rest.Nodup)
    (hop : ∀ a ∈ rest, cAt a.str 0 ≠ '-') :
    permutePhase (prog :: rest) 1 none = .noMore (prog :: rest) (some rest.headI) := by
  have h0 : rest ≠ [] := by intro h; rw [h] at hlen; simp at hlen
  have e1 : (prog :: rest).getD 1 default = rest.headI := by
    rw [List.getD_cons_succ]; exact getD_zero_headI rest h0
  unfold permutePhase
  rw [e1]
  rw [if_neg (hop _ (headI_mem_of_ne_nil rest h0))]
  have e2 : (prog :: rest).length - 1 = rest.length := by simp
  rw [e2]
  rw [if_neg (by omega)]
  have e3 : (prog :: rest).drop 1 = rest := rfl
  rw [e3, Option.getD_none]
  rw [permuteLoop_cycle rest hnd hop (by omega)]
  simp

lemma getoptAux_only_operands (prog : Arg) (rest : List Arg) (ostr : List Char)
    (s : GetoptState) (hlen : 2 ≤ rest.length) (hnd : rest.Nodup)
    (hop : ∀ a ∈ rest, cAt a.str 0 ≠ '-')
    (hind : s.optind = 1) (hfst : s.first = none) :
    getoptAux (prog :: rest) ostr s =
      some ⟨-1, prog :: rest, { s with optcursor := none, first := none }, []⟩ := by
  unfold getoptAux
  rw [hind, hfst]
  rw [if_neg (by simp only [List.length_cons]; omega)]
  rw [permutePhase_only_operands prog rest hlen hnd hop]

lemma take_append_window (argv w : List Arg) (o : Nat) (ho : o ≤ argv.length)
    (hw : w.Perm (argv.drop o)) :
    (argv.take o ++ w).Perm argv ∧ (argv.take o ++ w).take o = argv.take o := by
  constructor
  · have h1 := List.Perm.append_left (argv.take o) hw
    rwa [List.take_append_drop] at h1
  · rw [List.take_append_of_le_length (by simp; omega)]
    rw [List.take_take, min_self]

lemma permutePhase_noMore_argv (argv argv' : List Arg) (o : Nat)
    (fst f' : Option Arg) (h : permutePhase argv o fst = .noMore argv' f') :
    argv'.Perm argv ∧ argv'.take o = argv.take o := by
  unfold permutePhase at h
  split at h
  · simp at h
  · split at h
    · injection h with h1 h2
      subst h1
      exact ⟨List.Perm.refl _, rfl⟩
    · split at h
      · simp at h
      · split at h
        · injection h with h1 h2
          subst h1
          exact take_append_window argv _ o (by omega)
            (permuteLoop_perm _ _ _ _ (by assumption))
        · simp at h

lemma permutePhase_cont_argv (argv argv' : List Arg) (o : Nat)
    (fst f' : Option Arg) (h : permutePhase argv o fst = .cont argv' f') :
    argv'.Perm argv ∧ argv'.take o = argv.take o := by
  unfold permutePhase at h
  split at h
  · injection h with h1 h2
    subst h1
    exact ⟨List.Perm.refl _, rfl⟩
  · split at h
    · simp at h
    · split at h
      · simp at h
      · split at h
        · simp at h
        · injection h with h1 h2
          subst h1
          exact take_append_window argv _ o (by omega)
            (permuteLoop_perm _ _ _ _ (by assumption))

lemma shortScan_argv_eq (argv : List Arg) (ostr : List Char) (s : GetoptState)
    (o : Nat) : (shortScan argv ostr s o).argv = argv := by
  unfold shortScan
  split
  split
  · split_ifs <;> rfl
  · split_ifs <;> rfl

lemma shortScan_ret_nonneg (argv : List Arg) (ostr : List Char)
    (s : GetoptState) (o : Nat) : 0 ≤ (shortScan argv ostr s o).ret := by
  unfold shortScan
  split
  split
  · split_ifs <;> simp
  · split_ifs <;> simp

lemma longPhase_argv_eq (argv : List Arg) (o : Nat) (table : List LongOption)
    (hasLI : Bool) (s : GetoptState) :
    (longPhase argv o table hasLI s).argv = argv := by
  unfold longPhase
  split
  · split_ifs <;> rfl
  · rfl

lemma getoptAux_argv_perm (argv : List Arg) (ostr : List Char)
    (s : GetoptState) (r : GetoptResult) (h : getoptAux argv ostr s = some r) :
    r.argv.Perm argv ∧ r.argv.take s.optind = argv.take s.optind := by
  unfold getoptAux at h
  split at h
  · injection h with h1
    subst h1
    exact ⟨List.Perm.refl _, rfl⟩
  · rename_i hbound
    split at h
    · simp at h
    · rename_i argv' f' hpp
      injection h with h1
      subst h1
      exact permutePhase_noMore_argv argv argv' s.optind s.first f' hpp
    · rename_i argv' fst' hpp
      have hmain := permutePhase_cont_argv argv argv' s.optind s.first fst' hpp
      have hlen : argv'.length = argv.length := hmain.1.length_eq
      split at h
      · injection h with h1
        subst h1
        exact hmain
      · split at h
        · split at h
          · injection h with h1
            subst h1
            exact hmain
          · split at h
            · simp at h
            · rename_i fst w hul
              injection h with h1
              subst h1
              have hw : ((argv'.take (s.optind + 1) ++ w).Perm argv') ∧
                  (argv'.take (s.optind + 1) ++ w).take (s.optind + 1) =
                    argv'.take (s.optind + 1) :=
                take_append_window argv' w (s.optind + 1) (by omega)
                  (unwindLoop_perm _ _ _ _ hul)
              refine ⟨hw.1.trans hmain.1, ?_⟩
              have ht : (argv'.take (s.optind + 1) ++ w).take s.optind =
                  argv'.take s.optind := by
                rw [List.take_append_of_le_length (by simp; omega)]
                rw [List.take_take, min_eq_left (by omega)]
              rw [ht]
              exact hmain.2
        · injection h with h1
          subst h1
          rw [shortScan_argv_eq]
          exact hmain

lemma getopt_longAux_argv_perm (argv : List Arg) (ostr : List Char)
    (table : List LongOption) (hasLI : Bool) (s : GetoptState)
    (r : GetoptLongResult) (h : getopt_longAux argv ostr table hasLI s = some r) :
    r.argv.Perm argv ∧ r.argv.take s.optind = argv.take s.optind := by
  unfold getopt_longAux at h
  split at h
  · injection h with h1
    subst h1
    exact ⟨List.Perm.refl _, rfl⟩
  · split at h
    · simp at h
    · rename_i argv' f' hpp
      injection h with h1
      subst h1
      exact permutePhase_noMore_argv argv argv' s.optind s.first f' hpp
    · rename_i argv' fst' hpp
      have hmain := permutePhase_cont_argv argv argv' s.optind s.first fst' hpp
      split at h
      · rcases Option.map_eq_some'.mp h with ⟨r', hr', hrr⟩
        subst hrr
        have hg := getoptAux_argv_perm argv' ostr _ r' hr'
        dsimp only
        exact ⟨hg.1.trans hmain.1, hg.2.trans hmain.2⟩
      · injection h with h1
        subst h1
        rw [longPhase_argv_eq]
        exact hmain

lemma getoptAux_noMore_clears (argv : List Arg) (ostr : List Char)
    (s : GetoptState) (r : GetoptResult) (h : getoptAux argv ostr s = some r)
    (hret : r.ret = -1) : r.state.optcursor = none ∧ r.state.first = none := by
  unfold getoptAux at h
  split at h
  · injection h with h1; subst h1; exact ⟨rfl, rfl⟩
  · split at h
    · simp at h
    · injection h with h1; subst h1; exact ⟨rfl, rfl⟩
    · split at h
      · injection h with h1; subst h1; exact ⟨rfl, rfl⟩
      · rename_i argv' fst' hpp hne1
        split at h
        · split at h
          · injection h with h1; subst h1; exact ⟨rfl, rfl⟩
          · split at h
            · simp at h
            · injection h with h1; subst h1; exact ⟨rfl, rfl⟩
        · injection h with h1
          subst h1
          have hnn := shortScan_ret_nonneg argv' ostr
            { s with first := fst' } s.optind
          omega

lemma matchLoop_some_mem (cur : List Char) (n : Nat) :
    ∀ (table : List LongOption) (i : Nat) (m : Option (LongOption × Nat))
      (k : Nat) (d : LongOption) (j kk : Nat),
      matchLoop cur n table i m k = (some (d, j), kk) →
      d ∈ table ∨ m = some (d, j) := by
  intro table
  induction table with
  | nil =>
    intro i m k d j kk h
    rw [matchLoop] at h
    injection h with h1 h2
    exact Or.inr h1
  | cons e rest ih =>
    intro i m k d j kk h
    rw [matchLoop] at h
    split at h
    · injection h with h1 h2
      injection h1 with h1
      exact Or.inl (by rw [← (Prod.mk.injEq _ _ _ _).mp h1 |>.1]
                       exact List.mem_cons_self e rest)
    · split at h
      · split at h
        · injection h with h1 h2
          injection h1 with h1
          exact Or.inl (by rw [← (Prod.mk.injEq _ _ _ _).mp h1 |>.1]
                           exact List.mem_cons_self e rest)
        · rcases ih _ _ _ _ _ _ h with hm | hm
          · exact Or.inl (List.mem_cons_of_mem e hm)
          · injection hm with hm1
            exact Or.inl (by rw [← (Prod.mk.injEq _ _ _ _).mp hm1 |>.1]
                             exact List.mem_cons_self e rest)
      · rcases ih _ _ _ _ _ _ h with hm | hm
        · exact Or.inl (List.mem_cons_of_mem e hm)
        · exact Or.inr hm

lemma longPhase_ret_ne_neg_one (argv : List Arg) (o : Nat)
    (table : List LongOption) (hasLI : Bool) (s : GetoptState)
    (hval : ∀ d ∈ table, d.val ≠ -1) :
    (longPhase argv o table hasLI s).ret ≠ -1 := by
  unfold longPhase
  split
  · rename_i m i heq
    have hmem : m ∈ table := by
      rcases matchLoop_some_mem _ _ table 0 none 0 m i 1 heq with hm | hm
      · exact hm
      · simp at hm
    have hv := hval m hmem
    split_ifs <;> simp_all
  · simp

lemma getopt_longAux_noMore_clears_first (argv : List Arg) (ostr : List Char)
    (table : List LongOption) (hasLI : Bool) (s : GetoptState)
    (r : GetoptLongResult) (h : getopt_longAux argv ostr table hasLI s = some r)
    (hret : r.ret = -1) (hind : s.optind < argv.length)
    (hval : ∀ d ∈ table, d.val ≠ -1) : r.state.first = none := by
  unfold getopt_longAux at h
  split at h
  · omega
  · split at h
    · simp at h
    · injection h with h1; subst h1; rfl
    · split at h
      · rcases Option.map_eq_some'.mp h with ⟨r', hr', hrr⟩
        subst hrr
        exact (getoptAux_noMore_clears _ ostr _ r' hr' hret).2
      · injection h with h1
        subst h1
        exact absurd hret (longPhase_ret_ne_neg_one _ _ table hasLI _ hval)

lemma cAt_zero_of_take_two (l : List Char) (h : l.take 2 = ['-', '-']) :
    cAt l 0 = '-' := by
  cases l with
  | nil => simp at h
  | cons c t =>
    rw [List.take_succ_cons] at h
    injection h with h1 h2

/-- Under the long-option entry conditions (scan index inside the sequence,
current element at least three characters long and starting with `"--"`),
`getopt_long` is exactly the long resolution phase. -/
lemma getopt_long_dispatch (argv : List Arg) (ostr : List Char)
    (table : List LongOption) (hasLI : Bool) (s : GetoptState)
    (ho : s.optind < argv.length)
    (hlen3 : 3 ≤ (argv.getD s.optind default).str.length)
    (hpre : (argv.getD s.optind default).str.take 2 = ['-', '-']) :
    getopt_longAux argv ostr table hasLI s =
      some (longPhase argv s.optind table hasLI s) := by
  have hdash : cAt (argv.getD s.optind default).str 0 = '-' :=
    cAt_zero_of_take_two _ hpre
  have hperm : permutePhase argv s.optind s.first = .cont argv s.first := by
    unfold permutePhase
    rw [if_pos hdash]
  unfold getopt_longAux
  rw [if_neg (by omega)]
  rw [hperm]
  dsimp only
  rw [if_neg (by push_neg; exact ⟨by omega, hpre⟩)]

/-- The Boolean candidate-name test of getopt.c:252: the candidate (the first
`n` characters of the element after `"--"`) is a character-wise prefix of the
descriptor's name. -/
def candMatches (cur : List Char) (n : Nat) (d : LongOption) : Bool :=
  d.name.take n = cur.take n

lemma matchLoop_exact_aux (cur : List Char) (n : Nat) (hn : n ≤ cur.length) :
    ∀ (table : List LongOption) (i : Nat) (m : Option (LongOption × Nat))
      (k : Nat), (∃ d ∈ table, d.name = cur.take n) →
      ∃ d j, matchLoop cur n table i m k = (some (d, j), 1) ∧
        d.name = cur.take n := by
  intro table
  induction table with
  | nil => intro i m k h; simp at h
  | cons e rest ih =>
    intro i m k h
    rw [matchLoop]
    by_cases he : e.name = cur.take n
    · have hlen : e.name.length = n := by
        rw [he, List.length_take]
        omega
      rw [if_pos ⟨hlen, by rw [List.take_of_length_le (le_of_eq hlen), he]⟩]
      exact ⟨e, i, rfl, he⟩
    · have hx : ¬(e.name.length = n ∧ e.name.take n = cur.take n) := by
        rintro ⟨h1, h2⟩
        rw [List.take_of_length_le (le_of_eq h1)] at h2
        exact he h2
      rw [if_neg hx]
      have hrest : ∃ d ∈ rest, d.name = cur.take n := by
        rcases h with ⟨d, hd, hdn⟩
        rcases List.mem_cons.mp hd with rfl | hd'
        · exact absurd hdn he
        · exact ⟨d, hd', hdn⟩
      by_cases hp : e.name.take n = cur.take n
      · rw [if_pos hp]
        have hl : e.name.length ≠ n := by
          intro h1
          rw [List.take_of_length_le (le_of_eq h1)] at hp
          exact he hp
        rw [if_neg hl]
        exact ih (i + 1) (some (e, i)) (k + 1) hrest
      · rw [if_neg hp]
        exact ih (i + 1) m k hrest

lemma matchLoop_count_aux (cur : List Char) (n : Nat) :
    ∀ (table : List LongOption) (i : Nat) (m : Option (LongOption × Nat))
      (k : Nat),
      (∀ d ∈ table, candMatches cur n d = true → d.name.length ≠ n) →
      ∃ m', matchLoop cur n table i m k =
          (m', k + (table.filter (candMatches cur n)).length) ∧
        (((table.filter (candMatches cur n)).length = 0 ∧ m' = m) ∨
         (0 < (table.filter (candMatches cur n)).length ∧
           ∃ d j, m' = some (d, j) ∧ d ∈ table ∧
             candMatches cur n d = true)) := by
  intro table
  induction table with
  | nil =>
    intro i m k hnoex
    exact ⟨m, by simp [matchLoop], Or.inl ⟨by simp, rfl⟩⟩
  | cons e rest ih =>
    intro i m k hnoex
    rw [matchLoop]
    by_cases hp : e.name.take n = cur.take n
    · have hpm : candMatches cur n e = true := by
        simp [candMatches, hp]
      have hl : e.name.length ≠ n := hnoex e (List.mem_cons_self e rest) hpm
      rw [if_neg (by rintro ⟨h1, h2⟩; exact hl h1)]
      rw [if_pos hp, if_neg hl]
      have hnoex' : ∀ d ∈ rest, candMatches cur n d = true →
          d.name.length ≠ n := fun d hd => hnoex d (List.mem_cons_of_mem e hd)
      rcases ih (i + 1) (some (e, i)) (k + 1) hnoex' with ⟨m', hm', hdisj⟩
      have hfl : ((e :: rest).filter (candMatches cur n)).length =
          (rest.filter (candMatches cur n)).length + 1 := by
        rw [List.filter_cons_of_pos hpm]
        rfl
      refine ⟨m', ?_, ?_⟩
      · rw [hm', hfl]
        have : k + 1 + (rest.filter (candMatches cur n)).length =
            k + ((rest.filter (candMatches cur n)).length + 1) := by omega
        rw [this]
      · rw [hfl]
        rcases hdisj with ⟨hz, hmm⟩ | ⟨hpos, d, j, hmm, hd, hdm⟩
        · exact Or.inr ⟨by omega, e, i, hmm, List.mem_cons_self e rest, hpm⟩
        · exact Or.inr ⟨by omega, d, j, hmm, List.mem_cons_of_mem e hd, hdm⟩
    · have hpm : candMatches cur n e = false := by
        simp [candMatches]
        exact hp
      rw [if_neg (by rintro ⟨h1, h2⟩; exact hp h2)]
      rw [if_neg hp]
      have hnoex' : ∀ d ∈ rest, candMatches cur n d = true →
          d.name.length ≠ n := fun d hd => hnoex d (List.mem_cons_of_mem e hd)
      rcases ih (i + 1) m k hnoex' with ⟨m', hm', hdisj⟩
      have hfl : (e :: rest).filter (candMatches cur n) =
          rest.filter (candMatches cur n) := List.filter_cons_of_neg (by simp [hpm])
      refine ⟨m', by rw [hm', hfl], ?_⟩
      rw [hfl]
      rcases hdisj with ⟨hz, hmm⟩ | ⟨hpos, d, j, hmm, hd, hdm⟩
      · exact Or.inl ⟨hz, hmm⟩
      · exact Or.inr ⟨hpos, d, j, hmm, List.mem_cons_of_mem e hd, hdm⟩

lemma longPhase_not_unique_ret (argv : List Arg) (o : Nat)
    (table : List LongOption) (hasLI : Bool) (s : GetoptState)
    (hnoex : ∀ d ∈ table,
      candMatches ((argv.getD o default).str.drop 2)
        (strcspnEq ((argv.getD o default).str.drop 2)) d = true →
      d.name.length ≠ strcspnEq ((argv.getD o default).str.drop 2))
    (hcnt : (table.filter (candMatches ((argv.getD o default).str.drop 2)
        (strcspnEq ((argv.getD o default).str.drop 2)))).length ≠ 1) :
    (longPhase argv o table hasLI s).ret = (('?' : Char).toNat : Int) := by
  rcases matchLoop_count_aux _ _ table 0 none 0 hnoex with ⟨m', hm', hdisj⟩
  unfold longPhase
  rw [hm']
  rcases m' with _ | ⟨d, j⟩
  · rcases hc : (table.filter (candMatches ((argv.getD o default).str.drop 2)
        (strcspnEq ((argv.getD o default).str.drop 2)))).length with _ | _ | c
    · rfl
    · exact absurd hc hcnt
    · rfl
  · rcases hc : (table.filter (candMatches ((argv.getD o default).str.drop 2)
        (strcspnEq ((argv.getD o default).str.drop 2)))).length with _ | _ | c
    · rfl
    · exact absurd hc hcnt
    · rfl

/-! ### Claim theorems -/

/-- C3 (confirmed): for a fresh pass over a sequence whose tail (after the
program name) has length at least 2 and contains no element starting with
`'-'`, `getopt` reports "no more options" (-1) and the argument sequence read
after the call is exactly the original: the rotation cycle is the identity
permutation.  The `Nodup` hypothesis on the ids reflects that distinct C argv
entries are distinct pointers, which is what `argv[optind] != first`
compares. -/
theorem operand_only_pass_is_identity (prog : Arg) (rest : List Arg)
    (ostr : List Char) (s : GetoptState)
    (hlen : 2 ≤ rest.length) (hids : (rest.map Arg.id).Nodup)
    (hop : ∀ a ∈ rest, cAt a.str 0 ≠ '-')
    (hind : s.optind ≤ 1) (hfst : s.first = none) :
    getopt (prog :: rest) ostr s =
      some ⟨-1, prog :: rest,
        { entryState s with optcursor := none, first := none }, []⟩ := by
  have hnd : rest.Nodup := List.Nodup.of_map _ hids
  unfold getopt
  exact getoptAux_only_operands prog rest ostr (entryState s) hlen hnd hop
    (by simp [entryState, hind]) (by simp [entryState, hfst])

/-- Witness for C3 at a concrete input: `[prog, "f", "g"]`, no options. -/
theorem operand_only_pass_is_identity_witness :
    getopt [⟨0, ['p']⟩, ⟨1, ['f']⟩, ⟨2, ['g']⟩] [] initState =
      some ⟨-1, [⟨0, ['p']⟩, ⟨1, ['f']⟩, ⟨2, ['g']⟩],
        { entryState initState with optcursor := none, first := none }, []⟩ :=
  operand_only_pass_is_identity ⟨0, ['p']⟩ [⟨1, ['f']⟩, ⟨2, ['g']⟩] [] initState
    (by decide) (by decide) (by decide) (by decide) (by decide)

/-- C1 (code_bug): the failing input.  `optstring = "a"`, argv
`[prog, "-x"]`, error reporting enabled at the time of the call
(`initState.opterr = true`).  The call returns `'?'` (63) as the claim says,
but emits no diagnostic: both entry points execute `opterr = 0`
(getopt.c:66, 203) before the `if (opterr)` guard at getopt.c:170, so the
"invalid option" message is unreachable, contradicting the source's own
comment at getopt.c:39 that callers prevent the message by *setting*
`opterr` to 0. -/
theorem unknown_option_suppressed_diagnostic :
    getopt [⟨0, ['p']⟩, ⟨1, ['-', 'x']⟩] ['a'] initState =
      some ⟨(('?' : Char).toNat : Int), [⟨0, ['p']⟩, ⟨1, ['-', 'x']⟩],
        { optarg := none, optopt := 'x', optind := 2, opterr := false,
          optcursor := some (⟨1, ['-', 'x']⟩, 2), first := none }, []⟩ := by
  decide

/-- C5 (confirmed): specification `"o:"`, sequence `[prog, "-o", "val"]`,
fresh state with scan index 1: the call returns `'o'` (111), binds `"val"`
as the option's value, and advances `optind` from 1 to 3. -/
theorem required_value_from_next_element :
    getopt [⟨0, ['p']⟩, ⟨1, ['-', 'o']⟩, ⟨2, ['v', 'a', 'l']⟩] ['o', ':']
        initState =
      some ⟨(('o' : Char).toNat : Int),
        [⟨0, ['p']⟩, ⟨1, ['-', 'o']⟩, ⟨2, ['v', 'a', 'l']⟩],
        { optarg := some ['v', 'a', 'l'], optopt := 'o', optind := 3,
          opterr := false, optcursor := none, first := none }, []⟩ := by
  decide

/-- C2 (counterexample): a `getopt_long` call that reports "no more
options" (-1) through the `optind >= argc` exit (getopt.c:210-211) returns
with both the cluster cursor and the permutation anchor still set: the claim
that every terminal path clears both is false for `getopt_long`. -/
theorem getopt_long_terminal_keeps_cursor_anchor :
    (getopt_long [⟨0, ['p']⟩] [] [] false
        { optarg := none, optopt := nulChar, optind := 5, opterr := false,
          optcursor := some (⟨3, ['-', 'a']⟩, 1), first := some ⟨2, ['f']⟩ }).map
      (fun r => (r.ret, r.state.optcursor, r.state.first)) =
      some (-1, some (⟨3, ['-', 'a']⟩, 1), some ⟨2, ['f']⟩) := by
  decide

/-- C10 (counterexample): with a table whose head descriptor has the empty
name, the empty candidate of token `"--=v"` is an *exact* match for it
(getopt.c:243-249 fires with `option_length == 0`), so the call resolves it
and returns its value 97, not the ambiguous-option marker `'?'`: the claim
quantified over *every* table of at least two descriptors is false. -/
theorem empty_name_descriptor_wins_exact :
    (getopt_long [⟨0, ['p']⟩, ⟨1, ['-', '-', '=', 'v']⟩] []
        [⟨[], HasArg.required_argument, false, 97⟩,
         ⟨['x'], HasArg.no_argument, false, 120⟩] true initState).map
      (fun r => (r.ret, r.state.optarg)) = some (97, some ['v']) := by
  decide

/-- C2 (amended): `getopt` clears both the cluster cursor (`optcursor`)
and the permutation anchor (`first`) on *every* path that reports "no more
options" (-1).  For `getopt_long` this fails (see the counterexample): its
`optind >= argc` exit clears neither, and its own label clears only the
anchor; what does hold is that whenever a `getopt_long` call whose
(normalized) scan index is still inside the sequence reports -1 — and no
descriptor carries the value -1, which would alias the sentinel — the anchor
is cleared by return time. -/
theorem no_more_options_clears_state :
    (∀ argv ostr s r, getopt argv ostr s = some r → r.ret = -1 →
      r.state.optcursor = none ∧ r.state.first = none) ∧
    (∀ argv ostr table hasLI s r, getopt_long argv ostr table hasLI s = some r →
      r.ret = -1 → (entryState s).optind < argv.length →
      (∀ d ∈ table, d.val ≠ -1) → r.state.first = none) := by
  constructor
  · intro argv ostr s r h hret
    exact getoptAux_noMore_clears argv ostr (entryState s) r h hret
  · intro argv ostr table hasLI s r h hret hind hval
    exact getopt_longAux_noMore_clears_first argv ostr table hasLI
      (entryState s) r h hret hind hval

/-- Witness for C2 (amended): a `getopt` end-of-pass and a `getopt_long`
rotation-cycle end-of-pass, both at concrete inputs. -/
theorem no_more_options_clears_state_witness :
    ((⟨-1, [⟨0, ['p']⟩],
        { optarg := none, optopt := nulChar, optind := 1, opterr := false,
          optcursor := none, first := none }, []⟩ :
        GetoptResult).state.optcursor = none ∧
      (⟨-1, [⟨0, ['p']⟩],
        { optarg := none, optopt := nulChar, optind := 1, opterr := false,
          optcursor := none, first := none }, []⟩ :
        GetoptResult).state.first = none) ∧
    (⟨-1, [⟨0, ['p']⟩, ⟨1, ['f']⟩, ⟨2, ['g']⟩],
        { optarg := none, optopt := nulChar, optind := 1, opterr := false,
          optcursor := none, first := none }, [], none, none⟩ :
        GetoptLongResult).state.first = none :=
  ⟨no_more_options_clears_state.1 [⟨0, ['p']⟩] [] initState
      ⟨-1, [⟨0, ['p']⟩],
        { optarg := none, optopt := nulChar, optind := 1, opterr := false,
          optcursor := none, first := none }, []⟩ (by decide) (by decide),
    no_more_options_clears_state.2 [⟨0, ['p']⟩, ⟨1, ['f']⟩, ⟨2, ['g']⟩] [] []
      false initState
      ⟨-1, [⟨0, ['p']⟩, ⟨1, ['f']⟩, ⟨2, ['g']⟩],
        { optarg := none, optopt := nulChar, optind := 1, opterr := false,
          optcursor := none, first := none }, [], none, none⟩
      (by decide) (by decide) (by decide) (by decide)⟩

/-- C8 (confirmed): every call of `getopt` or `getopt_long` leaves the
argument sequence a permutation of what it was (same element count, same
element contents, elements only moved), and every element strictly before the
(normalized) scan index is untouched. -/
theorem argv_is_permuted_in_place :
    (∀ argv ostr s r, getopt argv ostr s = some r →
      r.argv.Perm argv ∧
      r.argv.take (entryState s).optind = argv.take (entryState s).optind) ∧
    (∀ argv ostr table hasLI s r, getopt_long argv ostr table hasLI s = some r →
      r.argv.Perm argv ∧
      r.argv.take (entryState s).optind = argv.take (entryState s).optind) := by
  constructor
  · intro argv ostr s r h
    exact getoptAux_argv_perm argv ostr (entryState s) r h
  · intro argv ostr table hasLI s r h
    exact getopt_longAux_argv_perm argv ostr table hasLI (entryState s) r h

/-- Witness for C8: a call that actually permutes (`[prog, "f", "-b"]` with
specification `"b"` rotates the operand `"f"` behind the option). -/
theorem argv_is_permuted_in_place_witness :
    ([⟨0, ['p']⟩, ⟨2, ['-', 'b']⟩, ⟨1, ['f']⟩] : List Arg).Perm
        [⟨0, ['p']⟩, ⟨1, ['f']⟩, ⟨2, ['-', 'b']⟩] ∧
      ([⟨0, ['p']⟩, ⟨2, ['-', 'b']⟩, ⟨1, ['f']⟩] : List Arg).take
          (entryState initState).optind =
        ([⟨0, ['p']⟩, ⟨1, ['f']⟩, ⟨2, ['-', 'b']⟩] : List Arg).take
          (entryState initState).optind :=
  argv_is_permuted_in_place.1 [⟨0, ['p']⟩, ⟨1, ['f']⟩, ⟨2, ['-', 'b']⟩] ['b']
    initState
    ⟨98, [⟨0, ['p']⟩, ⟨2, ['-', 'b']⟩, ⟨1, ['f']⟩],
      { optarg := none, optopt := 'b', optind := 2, opterr := false,
        optcursor := some (⟨2, ['-', 'b']⟩, 2), first := some ⟨1, ['f']⟩ }, []⟩
    (by decide)

/-- C6 (confirmed): when the current option character takes a required
value (`c:` in the specification, not `c::`), no characters remain in the
current element after the cursor, and no next element exists, `getopt`
returns `':'` if the specification starts with `':'` and `'?'` otherwise,
and `optarg` stays unset. -/
theorem missing_required_value_outcome (argv : List Arg) (ostr : List Char)
    (s : GetoptState) (a : Arg) (k : Nat) (d : List Char)
    (ho : (entryState s).optind < argv.length)
    (hdash : cAt (argv.getD (entryState s).optind default).str 0 = '-')
    (hne1 : (argv.getD (entryState s).optind default).str ≠ ['-'])
    (hne2 : (argv.getD (entryState s).optind default).str ≠ ['-', '-'])
    (hcur : resolveCursor (entryState s).optcursor
        (argv.getD (entryState s).optind default) = (a, k))
    (hdecl : strchrSuffix ostr (cAt a.str k) = some d)
    (hreq : cAt d 1 = ':') (hnotopt : cAt d 2 ≠ ':')
    (hrest : cAt a.str (k + 1) = nulChar)
    (hlast : argv.length ≤ (entryState s).optind + 1) :
    getopt argv ostr s =
      some ⟨(if cAt ostr 0 = ':' then ((':' : Char).toNat : Int)
             else (('?' : Char).toNat : Int)), argv,
        { entryState s with
            optarg := none,
            optopt := cAt a.str k,
            optcursor := none,
            optind := (entryState s).optind + 2 }, []⟩ := by
  have hperm : permutePhase argv (entryState s).optind (entryState s).first =
      .cont argv (entryState s).first := by
    unfold permutePhase
    rw [if_pos hdash]
  unfold getopt getoptAux
  rw [if_neg (by omega)]
  rw [hperm]
  dsimp only
  rw [if_neg hne1, if_neg hne2]
  unfold shortScan
  dsimp only
  rw [hcur]
  dsimp only
  rw [hdecl]
  dsimp only
  rw [if_pos hreq, if_pos hrest, if_neg hnotopt]
  rw [if_neg (show ¬((entryState s).optind + 1 < argv.length) by omega)]
  have hoe : (entryState s).opterr = false := rfl
  rw [hoe]
  simp

/-- Witness for C6: specification `"o:"`, sequence `[prog, "-o"]`, fresh
state: the call returns `'?'` with `optarg` unset. -/
theorem missing_required_value_outcome_witness :
    getopt [⟨0, ['p']⟩, ⟨1, ['-', 'o']⟩] ['o', ':'] initState =
      some ⟨(if cAt ['o', ':'] 0 = ':' then ((':' : Char).toNat : Int)
             else (('?' : Char).toNat : Int)), [⟨0, ['p']⟩, ⟨1, ['-', 'o']⟩],
        { entryState initState with
            optarg := none,
            optopt := cAt (Arg.mk 1 ['-', 'o']).str 1,
            optcursor := none,
            optind := (entryState initState).optind + 2 }, []⟩ :=
  missing_required_value_outcome [⟨0, ['p']⟩, ⟨1, ['-', 'o']⟩] ['o', ':']
    initState ⟨1, ['-', 'o']⟩ 1 ['o', ':'] (by decide) (by decide) (by decide)
    (by decide) (by decide) (by decide) (by decide) (by decide) (by decide)
    (by decide)

/-- C4 (confirmed): the long-option matching rules.  (1) An exact name
match is selected immediately with match count 1.  (2) With no exact match,
a unique prefix match is the resolution.  (3) With no exact match and a
prefix-match count other than one (zero or several), the `getopt_long` call
returns `'?'`.  (4)/(5) The concrete instances of the claim: with descriptors
`help` and `hex`, token `"--he"` yields `'?'` and token `"--hel"` resolves to
`help` (value 104, table index 0). -/
theorem long_option_matching_rules :
    (∀ (cur : List Char) (n : Nat) (table : List LongOption),
      n ≤ cur.length → (∃ d ∈ table, d.name = cur.take n) →
      ∃ d j, matchLoop cur n table 0 none 0 = (some (d, j), 1) ∧
        d.name = cur.take n) ∧
    (∀ (cur : List Char) (n : Nat) (table : List LongOption),
      (∀ d ∈ table, candMatches cur n d = true → d.name.length ≠ n) →
      (table.filter (candMatches cur n)).length = 1 →
      ∃ d j, matchLoop cur n table 0 none 0 = (some (d, j), 1) ∧
        d ∈ table ∧ candMatches cur n d = true) ∧
    (∀ (argv : List Arg) (ostr : List Char) (table : List LongOption)
      (hasLI : Bool) (s : GetoptState),
      (entryState s).optind < argv.length →
      3 ≤ (argv.getD (entryState s).optind default).str.length →
      (argv.getD (entryState s).optind default).str.take 2 = ['-', '-'] →
      (∀ d ∈ table,
        candMatches ((argv.getD (entryState s).optind default).str.drop 2)
          (strcspnEq ((argv.getD (entryState s).optind default).str.drop 2))
          d = true →
        d.name.length ≠
          strcspnEq ((argv.getD (entryState s).optind default).str.drop 2)) →
      (table.filter
        (candMatches ((argv.getD (entryState s).optind default).str.drop 2)
          (strcspnEq
            ((argv.getD (entryState s).optind default).str.drop 2)))).length ≠
        1 →
      ∃ r, getopt_long argv ostr table hasLI s = some r ∧
        r.ret = (('?' : Char).toNat : Int)) ∧
    ((getopt_long [⟨0, ['p']⟩, ⟨1, ['-', '-', 'h', 'e']⟩] []
        [⟨['h', 'e', 'l', 'p'], HasArg.no_argument, false, 104⟩,
         ⟨['h', 'e', 'x'], HasArg.no_argument, false, 120⟩] true initState).map
      (fun r => (r.ret, r.longindexOut)) =
      some ((('?' : Char).toNat : Int), none)) ∧
    ((getopt_long [⟨0, ['p']⟩, ⟨1, ['-', '-', 'h', 'e', 'l']⟩] []
        [⟨['h', 'e', 'l', 'p'], HasArg.no_argument, false, 104⟩,
         ⟨['h', 'e', 'x'], HasArg.no_argument, false, 120⟩] true initState).map
      (fun r => (r.ret, r.longindexOut)) = some (104, some 0)) := by
  refine ⟨?_, ?_, ?_, by decide, by decide⟩
  · intro cur n table hn hex
    exact matchLoop_exact_aux cur n hn table 0 none 0 hex
  · intro cur n table hnoex huniq
    rcases matchLoop_count_aux cur n table 0 none 0 hnoex with ⟨m', hm', hdisj⟩
    rw [huniq] at hm'
    rcases hdisj with ⟨hz, _⟩ | ⟨_, d, j, hmm, hd, hdm⟩
    · omega
    · subst hmm
      exact ⟨d, j, hm', hd, hdm⟩
  · intro argv ostr table hasLI s ho hlen3 hpre hnoex hcnt
    refine ⟨longPhase argv (entryState s).optind table hasLI (entryState s),
      ?_, ?_⟩
    · unfold getopt_long
      exact getopt_long_dispatch argv ostr table hasLI (entryState s) ho
        hlen3 hpre
    · exact longPhase_not_unique_ret argv (entryState s).optind table hasLI
        (entryState s) hnoex hcnt

/-- Witness for C4: the exact-match rule at candidate `"hex"`, and the
ambiguous call `"--he"` yielding `'?'`, at concrete inputs. -/
theorem long_option_matching_rules_witness :
    (∃ d j, matchLoop ['h', 'e', 'x'] 3
        [⟨['h', 'e', 'l', 'p'], HasArg.no_argument, false, 104⟩,
         ⟨['h', 'e', 'x'], HasArg.no_argument, false, 120⟩] 0 none 0 =
        (some (d, j), 1) ∧ d.name = List.take 3 ['h', 'e', 'x']) ∧
    (∃ r, getopt_long [⟨0, ['p']⟩, ⟨1, ['-', '-', 'h', 'e']⟩] []
        [⟨['h', 'e', 'l', 'p'], HasArg.no_argument, false, 104⟩,
         ⟨['h', 'e', 'x'], HasArg.no_argument, false, 120⟩] false initState =
        some r ∧ r.ret = (('?' : Char).toNat : Int)) :=
  ⟨long_option_matching_rules.1 ['h', 'e', 'x'] 3
      [⟨['h', 'e', 'l', 'p'], HasArg.no_argument, false, 104⟩,
       ⟨['h', 'e', 'x'], HasArg.no_argument, false, 120⟩] (by decide)
      ⟨⟨['h', 'e', 'x'], HasArg.no_argument, false, 120⟩, by decide, by decide⟩,
    long_option_matching_rules.2.2.1 [⟨0, ['p']⟩, ⟨1, ['-', '-', 'h', 'e']⟩] []
      [⟨['h', 'e', 'l', 'p'], HasArg.no_argument, false, 104⟩,
       ⟨['h', 'e', 'x'], HasArg.no_argument, false, 120⟩] false initState
      (by decide) (by decide) (by decide) (by decide) (by decide)⟩

/-- C7 (confirmed): when the token resolves uniquely to a descriptor with
argument mode "none" but the element contains `'='`, `getopt_long` returns
`'?'`, overriding the flag/value outcome computed at getopt.c:276. -/
theorem no_argument_option_given_equals (argv : List Arg) (ostr : List Char)
    (table : List LongOption) (hasLI : Bool) (s : GetoptState)
    (m : LongOption) (i : Nat)
    (ho : (entryState s).optind < argv.length)
    (hlen3 : 3 ≤ (argv.getD (entryState s).optind default).str.length)
    (hpre : (argv.getD (entryState s).optind default).str.take 2 = ['-', '-'])
    (hmatch : matchLoop ((argv.getD (entryState s).optind default).str.drop 2)
        (strcspnEq ((argv.getD (entryState s).optind default).str.drop 2))
        table 0 none 0 = (some (m, i), 1))
    (hnoarg : m.has_arg = HasArg.no_argument)
    (heq : strchrSuffix (argv.getD (entryState s).optind default).str '=' ≠
        none) :
    ∃ r, getopt_long argv ostr table hasLI s = some r ∧
      r.ret = (('?' : Char).toNat : Int) := by
  refine ⟨longPhase argv (entryState s).optind table hasLI (entryState s),
    ?_, ?_⟩
  · unfold getopt_long
    exact getopt_long_dispatch argv ostr table hasLI (entryState s) ho
      hlen3 hpre
  · unfold longPhase
    rw [hmatch]
    dsimp only
    rw [if_neg (by simp [hnoarg]), if_pos heq]

/-- Witness for C7: `"--help=x"` against a no-argument `help` descriptor. -/
theorem no_argument_option_given_equals_witness :
    ∃ r, getopt_long [⟨0, ['p']⟩, ⟨1, ['-', '-', 'h', 'e', 'l', 'p', '=', 'x']⟩]
        [] [⟨['h', 'e', 'l', 'p'], HasArg.no_argument, false, 104⟩] false
        initState = some r ∧ r.ret = (('?' : Char).toNat : Int) :=
  no_argument_option_given_equals
    [⟨0, ['p']⟩, ⟨1, ['-', '-', 'h', 'e', 'l', 'p', '=', 'x']⟩] []
    [⟨['h', 'e', 'l', 'p'], HasArg.no_argument, false, 104⟩] false initState
    ⟨['h', 'e', 'l', 'p'], HasArg.no_argument, false, 104⟩ 0 (by decide)
    (by decide) (by decide) (by decide) (by decide) (by decide)

/-- C9 (confirmed): whenever the matching loop resolves a unique match,
the descriptor's flag location (when non-null) receives the descriptor's
value and the `longindex` slot (when passed) receives the descriptor's table
index — unconditionally on the eventual return value, so also when the call
goes on to return `'?'` or `':'`. -/
theorem long_match_always_writes (argv : List Arg) (ostr : List Char)
    (table : List LongOption) (hasLI : Bool) (s : GetoptState)
    (m : LongOption) (i : Nat)
    (ho : (entryState s).optind < argv.length)
    (hlen3 : 3 ≤ (argv.getD (entryState s).optind default).str.length)
    (hpre : (argv.getD (entryState s).optind default).str.take 2 = ['-', '-'])
    (hmatch : matchLoop ((argv.getD (entryState s).optind default).str.drop 2)
        (strcspnEq ((argv.getD (entryState s).optind default).str.drop 2))
        table 0 none 0 = (some (m, i), 1)) :
    ∃ r, getopt_long argv ostr table hasLI s = some r ∧
      r.flagWrite = (if m.flag then some m.val else none) ∧
      r.longindexOut = (if hasLI then some i else none) := by
  refine ⟨longPhase argv (entryState s).optind table hasLI (entryState s),
    ?_, ?_, ?_⟩
  · unfold getopt_long
    exact getopt_long_dispatch argv ostr table hasLI (entryState s) ho
      hlen3 hpre
  · unfold longPhase
    rw [hmatch]
    dsimp only
    split_ifs <;> rfl
  · unfold longPhase
    rw [hmatch]
    dsimp only
    split_ifs <;> rfl

/-- Witness for C9: `"--help=x"` against a no-argument `help` descriptor with
a flag location and a passed `longindex`: the call returns `'?'`, yet the
flag is written with 7 and the index slot with 0. -/
theorem long_match_always_writes_witness :
    ∃ r, getopt_long [⟨0, ['p']⟩, ⟨1, ['-', '-', 'h', 'e', 'l', 'p', '=', 'x']⟩]
        [] [⟨['h', 'e', 'l', 'p'], HasArg.no_argument, true, 7⟩] true
        initState = some r ∧
      r.flagWrite = (if (true : Bool) then some (7 : Int) else none) ∧
      r.longindexOut = (if (true : Bool) then some 0 else none) :=
  long_match_always_writes
    [⟨0, ['p']⟩, ⟨1, ['-', '-', 'h', 'e', 'l', 'p', '=', 'x']⟩] []
    [⟨['h', 'e', 'l', 'p'], HasArg.no_argument, true, 7⟩] true initState
    ⟨['h', 'e', 'l', 'p'], HasArg.no_argument, true, 7⟩ 0 (by decide)
    (by decide) (by decide) (by decide)

/-- C10 (amended): for a table of at least two descriptors *all with
nonempty names*, a token `"--=..."` (empty candidate name) makes every
descriptor a prefix match — the match count equals the table size — and the
call returns `'?'` as an ambiguous-option error.  (A descriptor with an empty
name would instead be an exact match for the empty candidate and be resolved
normally; see the counterexample.) -/
theorem empty_candidate_is_ambiguous (argv : List Arg) (ostr : List Char)
    (table : List LongOption) (hasLI : Bool) (s : GetoptState) (v : List Char)
    (ho : (entryState s).optind < argv.length)
    (helem : (argv.getD (entryState s).optind default).str =
      '-' :: '-' :: '=' :: v)
    (htab2 : 2 ≤ table.length)
    (hnames : ∀ d ∈ table, d.name ≠ []) :
    ∃ r, getopt_long argv ostr table hasLI s = some r ∧
      r.ret = (('?' : Char).toNat : Int) ∧
      (matchLoop ((argv.getD (entryState s).optind default).str.drop 2)
        (strcspnEq ((argv.getD (entryState s).optind default).str.drop 2))
        table 0 none 0).2 = table.length := by
  have hn0 : strcspnEq ((argv.getD (entryState s).optind default).str.drop 2) =
      0 := by
    rw [helem]
    rfl
  have hall : ∀ d ∈ table,
      candMatches ((argv.getD (entryState s).optind default).str.drop 2)
        (strcspnEq ((argv.getD (entryState s).optind default).str.drop 2)) d =
      true := by
    intro d hd
    rw [hn0]
    simp [candMatches]
  have hfilt : table.filter
      (candMatches ((argv.getD (entryState s).optind default).str.drop 2)
        (strcspnEq ((argv.getD (entryState s).optind default).str.drop 2))) =
      table := List.filter_eq_self.mpr hall
  have hnoex : ∀ d ∈ table,
      candMatches ((argv.getD (entryState s).optind default).str.drop 2)
        (strcspnEq ((argv.getD (entryState s).optind default).str.drop 2)) d =
        true →
      d.name.length ≠
        strcspnEq ((argv.getD (entryState s).optind default).str.drop 2) := by
    intro d hd _
    rw [hn0]
    simp only [ne_eq, List.length_eq_zero]
    exact hnames d hd
  have hcnt : (table.filter
      (candMatches ((argv.getD (entryState s).optind default).str.drop 2)
        (strcspnEq
          ((argv.getD (entryState s).optind default).str.drop 2)))).length ≠
      1 := by
    rw [hfilt]
    omega
  refine ⟨longPhase argv (entryState s).optind table hasLI (entryState s),
    ?_, ?_, ?_⟩
  · unfold getopt_long
    exact getopt_long_dispatch argv ostr table hasLI (entryState s) ho
      (by rw [helem]; simp) (by rw [helem]; rfl)
  · exact longPhase_not_unique_ret argv (entryState s).optind table hasLI
      (entryState s) hnoex hcnt
  · rcases matchLoop_count_aux
        ((argv.getD (entryState s).optind default).str.drop 2)
        (strcspnEq ((argv.getD (entryState s).optind default).str.drop 2))
        table 0 none 0 hnoex with ⟨m', hm', _⟩
    rw [hm', hfilt]
    simp

/-- Witness for C10 (amended): token `"--=v"` against descriptors `ab` and
`x`: count 2, outcome `'?'`. -/
theorem empty_candidate_is_ambiguous_witness :
    ∃ r, getopt_long [⟨0, ['p']⟩, ⟨1, ['-', '-', '=', 'v']⟩] []
        [⟨['a', 'b'], HasArg.no_argument, false, 97⟩,
         ⟨['x'], HasArg.no_argument, false, 120⟩] false initState = some r ∧
      r.ret = (('?' : Char).toNat : Int) ∧
      (matchLoop ((([⟨0, ['p']⟩, ⟨1, ['-', '-', '=', 'v']⟩] :
          List Arg).getD (entryState initState).optind default).str.drop 2)
        (strcspnEq ((([⟨0, ['p']⟩, ⟨1, ['-', '-', '=', 'v']⟩] :
          List Arg).getD (entryState initState).optind default).str.drop 2))
        [⟨['a', 'b'], HasArg.no_argument, false, 97⟩,
         ⟨['x'], HasArg.no_argument, false, 120⟩] 0 none 0).2 =
        ([⟨['a', 'b'], HasArg.no_argument, false, 97⟩,
          ⟨['x'], HasArg.no_argument, false, 120⟩] :
          List LongOption).length :=
  empty_candidate_is_ambiguous [⟨0, ['p']⟩, ⟨1, ['-', '-', '=', 'v']⟩] []
    [⟨['a', 'b'], HasArg.no_argument, false, 97⟩,
     ⟨['x'], HasArg.no_argument, false, 120⟩] false initState ['v']
    (by decide) (by decide) (by decide) (by decide)
